import Mathlib

set_option maxHeartbeats 1000000

/-!
Verification development for the checke-server-agent metrics agent.

Each Go function relevant to the checked properties is shallowly embedded as
an executable Lean definition: Go `uint64` arithmetic is `Nat` with explicit
wrap-around `% 2^64`, Go `float64` division is modeled exactly over `ℚ`
(the claims settled here only depend on sign/compare behavior or on exactly
representable values), and fallible operations return `Option`/`Except`.
-/

namespace CheckeAgent

/-! ## Go machine arithmetic -/

/-- Go `uint64` wrap-around. -/
def w64 (n : Nat) : Nat := n % 2 ^ 64

/-- Go `uint64` addition. -/
def add64 (a b : Nat) : Nat := w64 (a + b)

/-- Go `uint64` subtraction; wraps on underflow (for `a b < 2^64`). -/
def sub64 (a b : Nat) : Nat := w64 (2 ^ 64 + a - b)

/-! ## CPU delta sampler (src/agent/cpu_collector.go) -/

/-- One snapshot of categorized CPU tick counters (`CPUStats` in
cpu_collector.go).  All fields are Go `uint64` values. -/
structure CPUStats where
  user : Nat
  nice : Nat
  system : Nat
  idle : Nat
  iowait : Nat
  irq : Nat
  softirq : Nat
  steal : Nat
  guest : Nat
  total : Nat
deriving DecidableEq, Repr

/-- `calculateCPUPercentage` (cpu_collector.go:87-116).  The Go code computes
the deltas with `uint64` subtraction (which wraps) and then divides as
`float64`; the division, comparisons and clamping are modeled exactly
over `ℚ`. -/
def calculateCPUPercentage (prev curr : CPUStats) : ℚ :=
  let prevIdle := add64 prev.idle prev.iowait
  let currIdle := add64 curr.idle curr.iowait
  let prevNonIdle :=
    add64 (add64 (add64 (add64 (add64 prev.user prev.nice) prev.system) prev.irq) prev.softirq) prev.steal
  let currNonIdle :=
    add64 (add64 (add64 (add64 (add64 curr.user curr.nice) curr.system) curr.irq) curr.softirq) curr.steal
  let prevTotal := add64 prevIdle prevNonIdle
  let currTotal := add64 currIdle currNonIdle
  let totalDiff := sub64 currTotal prevTotal
  let idleDiff := sub64 currIdle prevIdle
  if totalDiff = 0 then 0
  else
    let cpuUsage : ℚ := ((sub64 totalDiff idleDiff : Nat) : ℚ) / (totalDiff : ℚ) * 100
    if cpuUsage < 0 then 0
    else if cpuUsage > 100 then 100
    else cpuUsage

/-- The CPU percentage formula exactly as the spec's words state it
(claim C1): signed integer deltas `Δidle' = Δ(idle+iowait)`,
`ΔnonIdle' = Δ(user+nice+system+irq+softirq+steal)`,
value `(Δtotal - Δidle')/Δtotal * 100` clamped to `[0,100]`, and `0` when
`Δtotal = 0`.  Spec-side definition, to be compared with
`calculateCPUPercentage`. -/
def specCPUPercentage (prev curr : CPUStats) : ℚ :=
  let dIdle : ℤ := ((curr.idle : ℤ) + curr.iowait) - ((prev.idle : ℤ) + prev.iowait)
  let dNonIdle : ℤ :=
    ((curr.user : ℤ) + curr.nice + curr.system + curr.irq + curr.softirq + curr.steal)
      - ((prev.user : ℤ) + prev.nice + prev.system + prev.irq + prev.softirq + prev.steal)
  let dTotal : ℤ := dIdle + dNonIdle
  if dTotal = 0 then 0
  else min 100 (max 0 ((((dTotal - dIdle : ℤ) : ℚ)) / ((dTotal : ℤ) : ℚ) * 100))

/-- The computed result of `calculateCPUPercentage` always lies in `[0,100]`:
the final clamping branches make this hold for every input pair, including
wrapped (counter-reset) deltas. -/
theorem calculateCPUPercentage_range (prev curr : CPUStats) :
    0 ≤ calculateCPUPercentage prev curr ∧ calculateCPUPercentage prev curr ≤ 100 := by
  unfold calculateCPUPercentage
  dsimp only
  refine ⟨?_, ?_⟩ <;>
  · split
    · norm_num
    · split
      · norm_num
      · split
        · norm_num
        · rename_i h1 h2
          push_neg at h1 h2
          first
          | exact h1
          | exact h2

/-- On a pair of snapshots where the counters went backwards, the code's
result differs from the spec's clamped signed-delta formula: with
`prev = (idle 10)` and `curr = (user 3, idle 5)` the spec formula clamps
`-150` to `0`, while the wrapped `uint64` deltas make the code return the
tiny positive value `300 / (2^64 - 2)`. -/
theorem c1_cpu_formula_counterexample :
    calculateCPUPercentage ⟨0, 0, 0, 10, 0, 0, 0, 0, 0, 10⟩ ⟨3, 0, 0, 5, 0, 0, 0, 0, 0, 8⟩ ≠
      specCPUPercentage ⟨0, 0, 0, 10, 0, 0, 0, 0, 0, 10⟩ ⟨3, 0, 0, 5, 0, 0, 0, 0, 0, 8⟩ := by
  norm_num [calculateCPUPercentage, specCPUPercentage, add64, sub64, w64]

/-- Sum of the six non-idle counter categories used by the sampler. -/
def cpuNonIdleSum (s : CPUStats) : Nat :=
  s.user + s.nice + s.system + s.irq + s.softirq + s.steal

/-- `idle' = idle + iowait` as in the sampler. -/
def cpuIdleSum (s : CPUStats) : Nat := s.idle + s.iowait

/-- The total the sampler works with (idle' + nonIdle'; `guest` is unused). -/
def cpuTotalSum (s : CPUStats) : Nat := cpuIdleSum s + cpuNonIdleSum s

/-- Closed form of the sampler on monotone snapshots:
`ΔnonIdle' / Δtotal * 100`, `0` when `Δtotal = 0`. -/
def cpuClosedForm (prev curr : CPUStats) : ℚ :=
  let D := cpuTotalSum curr - cpuTotalSum prev
  let N := cpuNonIdleSum curr - cpuNonIdleSum prev
  if D = 0 then 0 else (N : ℚ) / (D : ℚ) * 100

/-- Componentwise monotonicity of the eight counters the sampler reads
(the running-system invariant of the spec's data model). -/
def cpuCountersLe (prev curr : CPUStats) : Prop :=
  prev.user ≤ curr.user ∧ prev.nice ≤ curr.nice ∧ prev.system ≤ curr.system ∧
  prev.idle ≤ curr.idle ∧ prev.iowait ≤ curr.iowait ∧ prev.irq ≤ curr.irq ∧
  prev.softirq ≤ curr.softirq ∧ prev.steal ≤ curr.steal

instance (prev curr : CPUStats) : Decidable (cpuCountersLe prev curr) := by
  unfold cpuCountersLe; infer_instance

theorem calc_eq_closed (prev curr : CPUStats) (hle : cpuCountersLe prev curr)
    (hfit : cpuTotalSum curr < 2 ^ 64) :
    calculateCPUPercentage prev curr = cpuClosedForm prev curr := by
  obtain ⟨h1, h2, h3, h4, h5, h6, h7, h8⟩ := hle
  unfold cpuTotalSum cpuIdleSum cpuNonIdleSum at hfit
  unfold calculateCPUPercentage cpuClosedForm cpuTotalSum cpuIdleSum cpuNonIdleSum
  dsimp only
  have eci : add64 curr.idle curr.iowait = curr.idle + curr.iowait := by
    unfold add64 w64; omega
  have epi : add64 prev.idle prev.iowait = prev.idle + prev.iowait := by
    unfold add64 w64; omega
  have ecn : add64 (add64 (add64 (add64 (add64 curr.user curr.nice) curr.system) curr.irq) curr.softirq) curr.steal
      = curr.user + curr.nice + curr.system + curr.irq + curr.softirq + curr.steal := by
    unfold add64 w64; omega
  have epn : add64 (add64 (add64 (add64 (add64 prev.user prev.nice) prev.system) prev.irq) prev.softirq) prev.steal
      = prev.user + prev.nice + prev.system + prev.irq + prev.softirq + prev.steal := by
    unfold add64 w64; omega
  rw [eci, epi, ecn, epn]
  have ect : add64 (curr.idle + curr.iowait)
      (curr.user + curr.nice + curr.system + curr.irq + curr.softirq + curr.steal)
      = curr.idle + curr.iowait + (curr.user + curr.nice + curr.system + curr.irq + curr.softirq + curr.steal) := by
    unfold add64 w64; omega
  have ept : add64 (prev.idle + prev.iowait)
      (prev.user + prev.nice + prev.system + prev.irq + prev.softirq + prev.steal)
      = prev.idle + prev.iowait + (prev.user + prev.nice + prev.system + prev.irq + prev.softirq + prev.steal) := by
    unfold add64 w64; omega
  rw [ect, ept]
  have est : sub64
      (curr.idle + curr.iowait + (curr.user + curr.nice + curr.system + curr.irq + curr.softirq + curr.steal))
      (prev.idle + prev.iowait + (prev.user + prev.nice + prev.system + prev.irq + prev.softirq + prev.steal))
      = curr.idle + curr.iowait + (curr.user + curr.nice + curr.system + curr.irq + curr.softirq + curr.steal)
        - (prev.idle + prev.iowait + (prev.user + prev.nice + prev.system + prev.irq + prev.softirq + prev.steal)) := by
    unfold sub64 w64; omega
  have esi : sub64 (curr.idle + curr.iowait) (prev.idle + prev.iowait)
      = curr.idle + curr.iowait - (prev.idle + prev.iowait) := by
    unfold sub64 w64; omega
  rw [est, esi]
  have esd : sub64
      (curr.idle + curr.iowait + (curr.user + curr.nice + curr.system + curr.irq + curr.softirq + curr.steal)
        - (prev.idle + prev.iowait + (prev.user + prev.nice + prev.system + prev.irq + prev.softirq + prev.steal)))
      (curr.idle + curr.iowait - (prev.idle + prev.iowait))
      = (curr.user + curr.nice + curr.system + curr.irq + curr.softirq + curr.steal)
        - (prev.user + prev.nice + prev.system + prev.irq + prev.softirq + prev.steal) := by
    unfold sub64 w64; omega
  rw [esd]
  by_cases hD :
      curr.idle + curr.iowait + (curr.user + curr.nice + curr.system + curr.irq + curr.softirq + curr.steal)
        - (prev.idle + prev.iowait + (prev.user + prev.nice + prev.system + prev.irq + prev.softirq + prev.steal)) = 0
  · rw [if_pos hD, if_pos hD]
  · rw [if_neg hD, if_neg hD]
    have hNle :
        (curr.user + curr.nice + curr.system + curr.irq + curr.softirq + curr.steal)
          - (prev.user + prev.nice + prev.system + prev.irq + prev.softirq + prev.steal)
        ≤ curr.idle + curr.iowait + (curr.user + curr.nice + curr.system + curr.irq + curr.softirq + curr.steal)
          - (prev.idle + prev.iowait + (prev.user + prev.nice + prev.system + prev.irq + prev.softirq + prev.steal)) := by
      omega
    have hDpos : (0 : ℚ) <
        ((curr.idle + curr.iowait + (curr.user + curr.nice + curr.system + curr.irq + curr.softirq + curr.steal)
          - (prev.idle + prev.iowait + (prev.user + prev.nice + prev.system + prev.irq + prev.softirq + prev.steal))
          : Nat) : ℚ) := by
      exact_mod_cast Nat.pos_of_ne_zero hD
    have h0 : (0 : ℚ) ≤
        (((curr.user + curr.nice + curr.system + curr.irq + curr.softirq + curr.steal)
          - (prev.user + prev.nice + prev.system + prev.irq + prev.softirq + prev.steal) : Nat) : ℚ)
          / ((curr.idle + curr.iowait + (curr.user + curr.nice + curr.system + curr.irq + curr.softirq + curr.steal)
          - (prev.idle + prev.iowait + (prev.user + prev.nice + prev.system + prev.irq + prev.softirq + prev.steal))
          : Nat) : ℚ) * 100 := by
      positivity
    have h100 :
        (((curr.user + curr.nice + curr.system + curr.irq + curr.softirq + curr.steal)
          - (prev.user + prev.nice + prev.system + prev.irq + prev.softirq + prev.steal) : Nat) : ℚ)
          / ((curr.idle + curr.iowait + (curr.user + curr.nice + curr.system + curr.irq + curr.softirq + curr.steal)
          - (prev.idle + prev.iowait + (prev.user + prev.nice + prev.system + prev.irq + prev.softirq + prev.steal))
          : Nat) : ℚ) * 100 ≤ 100 := by
      have hdiv :
          (((curr.user + curr.nice + curr.system + curr.irq + curr.softirq + curr.steal)
            - (prev.user + prev.nice + prev.system + prev.irq + prev.softirq + prev.steal) : Nat) : ℚ)
            / ((curr.idle + curr.iowait + (curr.user + curr.nice + curr.system + curr.irq + curr.softirq + curr.steal)
            - (prev.idle + prev.iowait + (prev.user + prev.nice + prev.system + prev.irq + prev.softirq + prev.steal))
            : Nat) : ℚ) ≤ 1 := by
        rw [div_le_one hDpos]
        exact_mod_cast hNle
      linarith
    rw [if_neg (not_lt.mpr h0), if_neg (not_lt.mpr h100)]

theorem spec_eq_closed (prev curr : CPUStats) (hle : cpuCountersLe prev curr) :
    specCPUPercentage prev curr = cpuClosedForm prev curr := by
  obtain ⟨h1, h2, h3, h4, h5, h6, h7, h8⟩ := hle
  unfold specCPUPercentage cpuClosedForm cpuTotalSum cpuIdleSum cpuNonIdleSum
  dsimp only
  by_cases hD :
      curr.idle + curr.iowait + (curr.user + curr.nice + curr.system + curr.irq + curr.softirq + curr.steal)
        - (prev.idle + prev.iowait + (prev.user + prev.nice + prev.system + prev.irq + prev.softirq + prev.steal)) = 0
  · rw [if_pos (by omega), if_pos hD]
  · rw [if_neg (by omega), if_neg hD]
    have hnum :
        ((((curr.idle : ℤ) + curr.iowait - ((prev.idle : ℤ) + prev.iowait)
          + ((curr.user : ℤ) + curr.nice + curr.system + curr.irq + curr.softirq + curr.steal
            - ((prev.user : ℤ) + prev.nice + prev.system + prev.irq + prev.softirq + prev.steal))
          - ((curr.idle : ℤ) + curr.iowait - ((prev.idle : ℤ) + prev.iowait)) : ℤ)) : ℚ)
        = (((curr.user + curr.nice + curr.system + curr.irq + curr.softirq + curr.steal)
            - (prev.user + prev.nice + prev.system + prev.irq + prev.softirq + prev.steal) : Nat) : ℚ) := by
      have : ((curr.idle : ℤ) + curr.iowait - ((prev.idle : ℤ) + prev.iowait)
          + ((curr.user : ℤ) + curr.nice + curr.system + curr.irq + curr.softirq + curr.steal
            - ((prev.user : ℤ) + prev.nice + prev.system + prev.irq + prev.softirq + prev.steal))
          - ((curr.idle : ℤ) + curr.iowait - ((prev.idle : ℤ) + prev.iowait)))
          = (((curr.user + curr.nice + curr.system + curr.irq + curr.softirq + curr.steal)
            - (prev.user + prev.nice + prev.system + prev.irq + prev.softirq + prev.steal) : Nat) : ℤ) := by
        omega
      rw [this]
      push_cast
      ring
    have hden :
        ((((curr.idle : ℤ) + curr.iowait - ((prev.idle : ℤ) + prev.iowait)
          + ((curr.user : ℤ) + curr.nice + curr.system + curr.irq + curr.softirq + curr.steal
            - ((prev.user : ℤ) + prev.nice + prev.system + prev.irq + prev.softirq + prev.steal)) : ℤ)) : ℚ)
        = ((curr.idle + curr.iowait + (curr.user + curr.nice + curr.system + curr.irq + curr.softirq + curr.steal)
            - (prev.idle + prev.iowait + (prev.user + prev.nice + prev.system + prev.irq + prev.softirq + prev.steal))
            : Nat) : ℚ) := by
      have : ((curr.idle : ℤ) + curr.iowait - ((prev.idle : ℤ) + prev.iowait)
          + ((curr.user : ℤ) + curr.nice + curr.system + curr.irq + curr.softirq + curr.steal
            - ((prev.user : ℤ) + prev.nice + prev.system + prev.irq + prev.softirq + prev.steal)))
          = ((curr.idle + curr.iowait + (curr.user + curr.nice + curr.system + curr.irq + curr.softirq + curr.steal)
            - (prev.idle + prev.iowait + (prev.user + prev.nice + prev.system + prev.irq + prev.softirq + prev.steal))
            : Nat) : ℤ) := by
        omega
      rw [this]
      push_cast
      ring
    rw [hnum, hden]
    have hDpos : (0 : ℚ) <
        ((curr.idle + curr.iowait + (curr.user + curr.nice + curr.system + curr.irq + curr.softirq + curr.steal)
          - (prev.idle + prev.iowait + (prev.user + prev.nice + prev.system + prev.irq + prev.softirq + prev.steal))
          : Nat) : ℚ) := by
      exact_mod_cast Nat.pos_of_ne_zero hD
    have hNle :
        (curr.user + curr.nice + curr.system + curr.irq + curr.softirq + curr.steal)
          - (prev.user + prev.nice + prev.system + prev.irq + prev.softirq + prev.steal)
        ≤ curr.idle + curr.iowait + (curr.user + curr.nice + curr.system + curr.irq + curr.softirq + curr.steal)
          - (prev.idle + prev.iowait + (prev.user + prev.nice + prev.system + prev.irq + prev.softirq + prev.steal)) := by
      omega
    have h0 : (0 : ℚ) ≤
        (((curr.user + curr.nice + curr.system + curr.irq + curr.softirq + curr.steal)
          - (prev.user + prev.nice + prev.system + prev.irq + prev.softirq + prev.steal) : Nat) : ℚ)
          / ((curr.idle + curr.iowait + (curr.user + curr.nice + curr.system + curr.irq + curr.softirq + curr.steal)
          - (prev.idle + prev.iowait + (prev.user + prev.nice + prev.system + prev.irq + prev.softirq + prev.steal))
          : Nat) : ℚ) * 100 := by
      positivity
    have h100 :
        (((curr.user + curr.nice + curr.system + curr.irq + curr.softirq + curr.steal)
          - (prev.user + prev.nice + prev.system + prev.irq + prev.softirq + prev.steal) : Nat) : ℚ)
          / ((curr.idle + curr.iowait + (curr.user + curr.nice + curr.system + curr.irq + curr.softirq + curr.steal)
          - (prev.idle + prev.iowait + (prev.user + prev.nice + prev.system + prev.irq + prev.softirq + prev.steal))
          : Nat) : ℚ) * 100 ≤ 100 := by
      have hdiv :
          (((curr.user + curr.nice + curr.system + curr.irq + curr.softirq + curr.steal)
            - (prev.user + prev.nice + prev.system + prev.irq + prev.softirq + prev.steal) : Nat) : ℚ)
            / ((curr.idle + curr.iowait + (curr.user + curr.nice + curr.system + curr.irq + curr.softirq + curr.steal)
            - (prev.idle + prev.iowait + (prev.user + prev.nice + prev.system + prev.irq + prev.softirq + prev.steal))
            : Nat) : ℚ) ≤ 1 := by
        rw [div_le_one hDpos]
        exact_mod_cast hNle
      linarith
    rw [max_eq_right h0, min_eq_right h100]

/-- C1 (amended): on snapshot pairs whose counters are componentwise
non-decreasing (no counter reset) and whose total fits in 64 bits, the
sampler's result equals the spec's clamped signed-delta formula, lies in
`[0,100]`, and is `0` when `Δtotal = 0`.  (The unamended claim over every
pair fails: see the counterexample theorem.) -/
theorem c1_cpu_formula_amended (prev curr : CPUStats) (hle : cpuCountersLe prev curr)
    (hfit : cpuTotalSum curr < 2 ^ 64) :
    calculateCPUPercentage prev curr = specCPUPercentage prev curr ∧
    (0 ≤ calculateCPUPercentage prev curr ∧ calculateCPUPercentage prev curr ≤ 100) ∧
    (cpuTotalSum curr = cpuTotalSum prev → calculateCPUPercentage prev curr = 0) := by
  refine ⟨?_, calculateCPUPercentage_range prev curr, ?_⟩
  · rw [calc_eq_closed prev curr hle hfit, spec_eq_closed prev curr hle]
  · intro h
    rw [calc_eq_closed prev curr hle hfit]
    unfold cpuClosedForm
    rw [h]
    simp

/-- Witness for `c1_cpu_formula_amended` at a concrete monotone pair. -/
theorem c1_cpu_formula_amended_witness :
    cpuCountersLe ⟨10, 0, 0, 50, 0, 0, 0, 0, 0, 60⟩ ⟨30, 0, 0, 90, 0, 0, 0, 0, 0, 120⟩ ∧
    cpuTotalSum ⟨30, 0, 0, 90, 0, 0, 0, 0, 0, 120⟩ < 2 ^ 64 ∧
    (calculateCPUPercentage ⟨10, 0, 0, 50, 0, 0, 0, 0, 0, 60⟩ ⟨30, 0, 0, 90, 0, 0, 0, 0, 0, 120⟩ =
        specCPUPercentage ⟨10, 0, 0, 50, 0, 0, 0, 0, 0, 60⟩ ⟨30, 0, 0, 90, 0, 0, 0, 0, 0, 120⟩ ∧
      (0 ≤ calculateCPUPercentage ⟨10, 0, 0, 50, 0, 0, 0, 0, 0, 60⟩ ⟨30, 0, 0, 90, 0, 0, 0, 0, 0, 120⟩ ∧
        calculateCPUPercentage ⟨10, 0, 0, 50, 0, 0, 0, 0, 0, 60⟩ ⟨30, 0, 0, 90, 0, 0, 0, 0, 0, 120⟩ ≤ 100) ∧
      (cpuTotalSum ⟨30, 0, 0, 90, 0, 0, 0, 0, 0, 120⟩ = cpuTotalSum ⟨10, 0, 0, 50, 0, 0, 0, 0, 0, 60⟩ →
        calculateCPUPercentage ⟨10, 0, 0, 50, 0, 0, 0, 0, 0, 60⟩ ⟨30, 0, 0, 90, 0, 0, 0, 0, 0, 120⟩ = 0)) :=
  ⟨by decide, by decide, c1_cpu_formula_amended _ _ (by decide) (by decide)⟩

/-- C8: even when the later snapshot's total is below the earlier snapshot's
total (counter reset), the unsigned-wrapping subtraction cannot push the
result out of `[0,100]`: the final clamp branches guarantee the range. -/
theorem c8_cpu_reset_in_range (prev curr : CPUStats) (_h : curr.total < prev.total) :
    0 ≤ calculateCPUPercentage prev curr ∧ calculateCPUPercentage prev curr ≤ 100 :=
  calculateCPUPercentage_range prev curr

/-- Witness for `c8_cpu_reset_in_range` at a concrete reset pair. -/
theorem c8_cpu_reset_in_range_witness :
    (⟨3, 0, 0, 5, 0, 0, 0, 0, 0, 8⟩ : CPUStats).total < (⟨0, 0, 0, 10, 0, 0, 0, 0, 0, 10⟩ : CPUStats).total ∧
    (0 ≤ calculateCPUPercentage ⟨0, 0, 0, 10, 0, 0, 0, 0, 0, 10⟩ ⟨3, 0, 0, 5, 0, 0, 0, 0, 0, 8⟩ ∧
      calculateCPUPercentage ⟨0, 0, 0, 10, 0, 0, 0, 0, 0, 10⟩ ⟨3, 0, 0, 5, 0, 0, 0, 0, 0, 8⟩ ≤ 100) :=
  ⟨by decide, c8_cpu_reset_in_range _ _ (by decide)⟩

/-! ## Size-string parser (src/agent/docker_collector.go, `parseDataSize`) -/

/-- The character class `[0-9.]` of the Go regex. -/
def isNumCh (c : Char) : Bool := c.isDigit || c = '.'

/-- Go regexp `\s`: `[\t\n\f\r ]`. -/
def isRegexSpace (c : Char) : Bool :=
  c = ' ' || c = '\t' || c = '\n' || c = '\x0c' || c = '\r'

/-- ASCII whitespace recognized by Go's `strings.TrimSpace`
(`\t \n \v \f \r ' '`; the agent only ever feeds it ASCII). -/
def isTrimSpace (c : Char) : Bool :=
  c = ' ' || c = '\t' || c = '\n' || c = '\x0b' || c = '\x0c' || c = '\r'

/-- `strings.TrimSpace` on ASCII input. -/
def goTrim (s : String) : String :=
  ⟨(((s.data.dropWhile isTrimSpace).reverse.dropWhile isTrimSpace).reverse)⟩

/-- The anchored Go regex `^([0-9.]+)\s*([A-Za-z]*)$` applied to a string:
because the three character classes are pairwise disjoint, a match exists
exactly when the string splits as a nonempty `[0-9.]` run, then whitespace,
then a letters-only tail, and the two captured groups are unique. -/
def sizeTokens (s : String) : Option (List Char × List Char) :=
  let cs := s.data
  let num := cs.takeWhile isNumCh
  let rest := cs.dropWhile isNumCh
  let unitCs := rest.dropWhile isRegexSpace
  if num ≠ [] ∧ (rest.takeWhile isRegexSpace).all isRegexSpace ∧ unitCs.all Char.isAlpha then
    some (num, unitCs)
  else none

/-- Decimal value of a digit run. -/
def digitsVal (cs : List Char) : Nat := cs.foldl (fun a c => a * 10 + (c.toNat - 48)) 0

/-- `strconv.ParseFloat` restricted to strings over `[0-9.]` (all the regex
can hand it): it succeeds exactly when there is at most one dot and at least
one digit, and its value is the decimal rational (the binary float rounding
is not modeled; the claims only involve exactly representable values). -/
def parseNumQ (cs : List Char) : Option ℚ :=
  if cs.count '.' ≤ 1 ∧ cs.any Char.isDigit then
    let ip := cs.takeWhile (fun c => c ≠ '.')
    let fp := (cs.dropWhile (fun c => c ≠ '.')).drop 1
    some ((digitsVal ip : ℚ) + (digitsVal fp : ℚ) / ((10 : ℚ) ^ fp.length))
  else none

/-- The unit-to-multiplier switch of `parseDataSize` (lower-cased unit).
An unrecognized unit falls through to multiplier `1`. -/
def multOf (u : String) : Int :=
  if u = "kb" ∨ u = "k" then 1000
  else if u = "mb" ∨ u = "m" then 1000 * 1000
  else if u = "gb" ∨ u = "g" then 1000 * 1000 * 1000
  else if u = "tb" ∨ u = "t" then 1000 * 1000 * 1000 * 1000
  else if u = "kib" then 1024
  else if u = "mib" then 1024 * 1024
  else if u = "gib" then 1024 * 1024 * 1024
  else if u = "tib" then 1024 * 1024 * 1024 * 1024
  else if u = "b" ∨ u = "" then 1
  else 1

/-- Go `int64(q)` for the nonnegative values produced here
(truncation toward zero). -/
def truncQ (q : ℚ) : Int := q.num.tdiv q.den

/-- Go `strings.ToLower` on the ASCII unit. -/
def lowerChars (cs : List Char) : String := ⟨cs.map Char.toLower⟩

/-- `parseDataSize` (docker_collector.go:335-383). -/
def parseDataSize (s : String) : Int :=
  if s = "" ∨ s = "0B" ∨ s = "0" then 0
  else
    match sizeTokens (goTrim s) with
    | none => 0
    | some (numCs, unitCs) =>
      match parseNumQ numCs with
      | none => 0
      | some q => truncQ (q * (multOf (lowerChars unitCs) : ℚ))

/-- The code maps a parseable number with an *unrecognized* unit to the bare
number (multiplier 1), not to 0: `"5XY"` parses to `5`, yet `"XY"` is no
recognized unit, so the claim's "unparseable input yields 0" fails there. -/
theorem c5_parse_size_counterexample :
    parseDataSize "5XY" = 5 ∧ (5 : Int) ≠ 0 := by
  constructor
  · simp +decide [parseDataSize, sizeTokens, goTrim, parseNumQ, digitsVal, truncQ, multOf, lowerChars]
  · decide

/-- C5 (amended): decimal units scale by 1000 and binary units by 1024 as
claimed (`"1.5GiB"` → `1610612736`, `"250MB"` → `250000000`, `"0B"` → `0`),
and a string rejected by the number-and-unit pattern, or whose numeric part
fails to parse, yields `0` — but a valid number with an *unrecognized* unit
is returned with multiplier 1 rather than 0 (see the counterexample). -/
theorem c5_parse_size_amended :
    parseDataSize "1.5GiB" = 1610612736 ∧
    parseDataSize "250MB" = 250000000 ∧
    parseDataSize "0B" = 0 ∧
    parseDataSize "1kB" = 1000 ∧
    parseDataSize "1MB" = 1000000 ∧
    parseDataSize "1GB" = 1000000000 ∧
    parseDataSize "1TB" = 1000000000000 ∧
    parseDataSize "1KiB" = 1024 ∧
    parseDataSize "1MiB" = 1048576 ∧
    parseDataSize "1TiB" = 1099511627776 ∧
    (∀ s : String, sizeTokens (goTrim s) = none → parseDataSize s = 0) ∧
    (∀ (s : String) (numCs unitCs : List Char),
      sizeTokens (goTrim s) = some (numCs, unitCs) → parseNumQ numCs = none →
        parseDataSize s = 0) := by
  have hgen1 : ∀ s : String, sizeTokens (goTrim s) = none → parseDataSize s = 0 := by
    intro s hst
    unfold parseDataSize
    split
    · rfl
    · rw [hst]
  have hgen2 : ∀ (s : String) (numCs unitCs : List Char),
      sizeTokens (goTrim s) = some (numCs, unitCs) → parseNumQ numCs = none →
        parseDataSize s = 0 := by
    intro s numCs unitCs hst hnum
    unfold parseDataSize
    split
    · rfl
    · rw [hst]
      dsimp only
      rw [hnum]
  refine ⟨?_, ?_, ?_, ?_, ?_, ?_, ?_, ?_, ?_, ?_, hgen1, hgen2⟩
  all_goals
    simp +decide [parseDataSize, sizeTokens, goTrim, parseNumQ, digitsVal, truncQ, multOf,
      lowerChars]
  all_goals
    norm_num [Int.tdiv_one]

/-- Witness for `c5_parse_size_amended`: the unparseable strings `"abc"`
(no numeric part) and `"1.2.3kB"` (two dots, `ParseFloat` fails) both map
to `0`. -/
theorem c5_parse_size_amended_witness :
    sizeTokens (goTrim "abc") = none ∧ parseDataSize "abc" = 0 ∧
    sizeTokens (goTrim "1.2.3kB") = some (['1', '.', '2', '.', '3'], ['k', 'B']) ∧
    parseNumQ ['1', '.', '2', '.', '3'] = none ∧ parseDataSize "1.2.3kB" = 0 := by
  have h := c5_parse_size_amended
  exact ⟨by decide, h.2.2.2.2.2.2.2.2.2.2.1 "abc" (by decide), by decide, by decide,
    h.2.2.2.2.2.2.2.2.2.2.2 "1.2.3kB" ['1', '.', '2', '.', '3'] ['k', 'B'] (by decide) (by decide)⟩

/-! ## Network interface selection (part_007, `getMainNetworkInterface`) -/

/-- One entry of `net.Interfaces()` together with the outcome of
`hasValidIPAddress` (whether the interface holds a non-loopback IPv4
address). -/
structure NetIface where
  name : String
  loopback : Bool
  up : Bool
  hasValidIP : Bool
deriving DecidableEq, Repr

/-- Character-level `strings.HasPrefix` (ASCII). -/
def chStarts : List Char → List Char → Bool
  | [], _ => true
  | _ :: _, [] => false
  | p :: ps, c :: cs => p = c && chStarts ps cs

/-- `strings.HasPrefix s p`. -/
def strStarts (s p : String) : Bool := chStarts p.data s.data

/-- The `priorities` slice of `getMainNetworkInterface`.  Its first entry is
the exact name `"eth0"`, not the bare `"eth"` the spec lists. -/
def ifacePriorities : List String := ["eth0", "ens", "enp", "eno", "em", "bond", "br"]

/-- The per-interface test of the priority loop: skip loopback and down
interfaces, match the name against the priority entry, and require a valid
IP address. -/
def ifaceEligible (p : String) (i : NetIface) : Bool :=
  !i.loopback && i.up && strStarts i.name p && i.hasValidIP

/-- The nested `for priority / for iface` loops. -/
def findByPriority : List String → List NetIface → Option String
  | [], _ => none
  | p :: ps, ifaces =>
    match ifaces.find? (fun i => ifaceEligible p i) with
    | some i => some i.name
    | none => findByPriority ps ifaces

/-- The last-resort loop: first up, non-loopback interface with a valid
address. -/
def lastResort (ifaces : List NetIface) : Option String :=
  (ifaces.find? (fun i => !i.loopback && i.up && i.hasValidIP)).map (fun i => i.name)

/-- `getMainNetworkInterface` (part_007:115-157), with the default-route
lookup and the `net.Interfaces()` call passed in as parameters (`route = ""`
models "no default route found", `ifacesRes = none` models an enumeration
error). -/
def getMainNetworkInterface (route : String) (ifacesRes : Option (List NetIface)) : String :=
  if route ≠ "" then route
  else
    match ifacesRes with
    | none => ""
    | some ifaces =>
      match findByPriority ifacePriorities ifaces with
      | some n => n
      | none =>
        match lastResort ifaces with
        | some n => n
        | none => ""

/-- With no default route and interfaces `[wlan0 (up, valid IP),
eth1 (up, valid IP)]`, the code selects `wlan0`, not `eth1`: the first
priority entry is the literal `"eth0"`, so `"eth1"` matches no entry of the
priority list and only the last-resort loop (which picks the first listed
interface) applies — contradicting the claim that the prefix stage selects
every up `eth*` interface. -/
theorem c6_iface_selection_counterexample :
    getMainNetworkInterface ""
        (some [⟨"wlan0", false, true, true⟩, ⟨"eth1", false, true, true⟩]) = "wlan0" ∧
      "wlan0" ≠ "eth1" := by
  decide

/-- C6 (amended): the default-route interface is always preferred; with no
default route the priority list is `eth0, ens, enp, eno, em, bond, br`
(first entry the literal `"eth0"`, not the bare `"eth"`), so a name such as
`"eth1"` matches no entry and is only reachable through the default-route or
last-resort stage; when no priority entry matches, the first up,
non-loopback interface with a valid address is chosen. -/
theorem c6_iface_selection_amended :
    (∀ (route : String) (ifs : Option (List NetIface)),
      route ≠ "" → getMainNetworkInterface route ifs = route) ∧
    (∀ p ∈ ifacePriorities, strStarts "eth1" p = false) ∧
    getMainNetworkInterface ""
      (some [⟨"wlan0", false, true, true⟩, ⟨"eth0", false, true, true⟩]) = "eth0" ∧
    getMainNetworkInterface "eth0"
      (some [⟨"lo", true, true, true⟩, ⟨"eth0", false, true, true⟩,
        ⟨"wlan0", false, true, true⟩]) = "eth0" ∧
    (∀ ifaces : List NetIface, findByPriority ifacePriorities ifaces = none →
      getMainNetworkInterface "" (some ifaces) = (lastResort ifaces).getD "") := by
  refine ⟨?_, by decide, by decide, by decide, ?_⟩
  · intro route ifs h
    unfold getMainNetworkInterface
    rw [if_pos h]
  · intro ifaces h
    unfold getMainNetworkInterface
    rw [if_neg (by simp)]
    dsimp only
    rw [h]
    cases lastResort ifaces <;> rfl

/-- Witness for `c6_iface_selection_amended` at concrete inputs. -/
theorem c6_iface_selection_amended_witness :
    ("eth0" : String) ≠ "" ∧
    getMainNetworkInterface "eth0" (some []) = "eth0" ∧
    findByPriority ifacePriorities [⟨"wlan0", false, true, true⟩] = none ∧
    getMainNetworkInterface "" (some [⟨"wlan0", false, true, true⟩]) =
      (lastResort [⟨"wlan0", false, true, true⟩]).getD "" := by
  have h := c6_iface_selection_amended
  exact ⟨by decide, h.1 "eth0" (some []) (by decide), by decide,
    h.2.2.2.2 [⟨"wlan0", false, true, true⟩] (by decide)⟩

/-! ## Network delta sampler (part_007, `getNetworkStats`) -/

/-- Cumulative interface counters (`NetworkStats` in the source; Go
`uint64` fields). -/
structure NetworkStats where
  bytesReceived : Nat
  bytesSent : Nat
  packetsReceived : Nat
  packetsSent : Nat
deriving DecidableEq, Repr

/-- The speed computation of `getNetworkStats` (part_007:84-94): when a
previous sample exists (`!lastNetworkTime.IsZero()`) and wall-clock time
advanced, the byte deltas are computed with wrapping `uint64` subtraction
and divided by the elapsed seconds — there is no branch for a counter
decrease.  This returns the (rx, tx) speed values before Go's final
`uint64(float64)` conversion; the division is modeled exactly over `ℚ`. -/
def netSpeeds (last curr : NetworkStats) (hasPrev : Bool) (dt : ℚ) : ℚ × ℚ :=
  if hasPrev && decide (0 < dt) then
    ((sub64 curr.bytesReceived last.bytesReceived : Nat) / dt,
      (sub64 curr.bytesSent last.bytesSent : Nat) / dt)
  else (0, 0)

/-- C7 evaluated at the failing input: with a previous reading of 1000 RX
bytes and a current reading of 500 RX bytes one second later (a counter
reset), the sampler emits the wrapped rate `2^64 - 500 ≈ 1.8·10^19` bytes/s
instead of treating the reading as a new baseline (no rate). -/
theorem c7_network_reset_bug_eval :
    (netSpeeds ⟨1000, 2000, 0, 0⟩ ⟨500, 800, 0, 0⟩ true 1).1 = ((2 ^ 64 - 500 : Nat) : ℚ) ∧
      ((2 ^ 64 - 500 : Nat) : ℚ) ≠ 0 := by
  constructor
  · norm_num [netSpeeds, sub64, w64]
  · norm_num

/-! ## Flexible JSON decoding (part_003, `FlexibleInt` / `FlexibleBool`) -/

/-- A decoded JSON value, as `encoding/json` sees it.  Numbers are modeled
by their rational value (integer literals written without a fractional
part). -/
inductive Json where
  | null
  | bool (b : Bool)
  | num (q : ℚ)
  | str (s : String)
  | arr (xs : List Json)
  | obj (fields : List (String × Json))

/-- `json.Unmarshal(data, &intVal)` for `intVal : int` (64-bit): succeeds on
an integral number fitting `int64`, and on `null` (no-op leaving the zero
value); everything else errors. -/
def goUnmarshalInt : Json → Option Int
  | .null => some 0
  | .num q =>
    if q.den = 1 ∧ -(2 ^ 63) ≤ q.num ∧ q.num < 2 ^ 63 then some q.num else none
  | _ => none

/-- `json.Unmarshal(data, &strVal)` for `strVal : string` (`null` is a
no-op leaving `""`). -/
def goUnmarshalStr : Json → Option String
  | .null => some ""
  | .str s => some s
  | _ => none

/-- `json.Unmarshal(data, &boolVal)` for `boolVal : bool` (`null` is a
no-op leaving `false`). -/
def goUnmarshalBool : Json → Option Bool
  | .null => some false
  | .bool b => some b
  | _ => none

/-- Value of a decimal digit run (all characters assumed digits). -/
def decDigitsVal (cs : List Char) : Nat := cs.foldl (fun a c => a * 10 + (c.toNat - 48)) 0

/-- `strconv.Atoi`: an optional single sign followed by at least one digit,
nothing else, with the `int` (64-bit) range check. -/
def atoi (s : String) : Option Int :=
  let signed : Option Int :=
    match s.data with
    | [] => none
    | '+' :: ds => if ds ≠ [] ∧ ds.all Char.isDigit then some (decDigitsVal ds) else none
    | '-' :: ds => if ds ≠ [] ∧ ds.all Char.isDigit then some (-(decDigitsVal ds : Int)) else none
    | ds => if ds.all Char.isDigit then some (decDigitsVal ds) else none
  match signed with
  | some v => if -(2 ^ 63) ≤ v ∧ v < 2 ^ 63 then some v else none
  | none => none

/-- `FlexibleInt.UnmarshalJSON` (part_003:50-74).  Every branch of the Go
method returns a `nil` error, so every path here is `.ok`. -/
def flexIntUnmarshal (v : Json) : Except String Int :=
  match goUnmarshalInt v with
  | some n => .ok n
  | none =>
    match goUnmarshalStr v with
    | some s =>
      if s = "" then .ok 0
      else
        match atoi s with
        | some n => .ok n
        | none => .ok 0
    | none => .ok 0

/-- `strings.ToLower` (ASCII). -/
def strToLower (s : String) : String := ⟨s.data.map Char.toLower⟩

/-- `FlexibleBool.UnmarshalJSON` (part_003:85-110). -/
def flexBoolUnmarshal (v : Json) : Except String Bool :=
  match goUnmarshalBool v with
  | some b => .ok b
  | none =>
    match goUnmarshalStr v with
    | some s =>
      if strToLower s = "true" ∨ strToLower s = "1" ∨ strToLower s = "yes" then .ok true
      else if strToLower s = "false" ∨ strToLower s = "0" ∨ strToLower s = "no" ∨ strToLower s = "" then
        .ok false
      else .ok false
    | none => .ok false

/-- The JSON number `3.5` is not taken "as-is" by `FlexibleInt`: decoding
into a Go `int` fails for a non-integral number, the string fallback also
fails, and the silent default `0` is produced — so the claim's "a native
number is taken as-is" does not hold for every number. -/
theorem c10_flexible_decode_counterexample :
    flexIntUnmarshal (Json.num ((7 : ℚ) / 2)) = .ok 0 ∧ ((7 : ℚ) / 2) ≠ 0 := by
  constructor
  · have hden : ((7 : ℚ) / 2).den = 2 := by norm_num
    simp [flexIntUnmarshal, goUnmarshalInt, goUnmarshalStr, hden]
  · norm_num

/-- C10 (amended): decoding into `FlexibleInt`/`FlexibleBool` is total
(every JSON value yields `.ok`); a native *integral* number within `int64`
range and a native boolean are taken as-is, while a non-integral number
silently yields `0`; numeric strings convert via `Atoi` (default `0`),
boolean-like strings (`true/1/yes` vs anything else, case-insensitively)
convert with default `false`; arrays and objects yield the defaults. -/
theorem c10_flexible_decode_amended :
    (∀ v : Json, ∃ n : Int, flexIntUnmarshal v = .ok n) ∧
    (∀ v : Json, ∃ b : Bool, flexBoolUnmarshal v = .ok b) ∧
    (∀ n : Int, -(2 ^ 63) ≤ n → n < 2 ^ 63 → flexIntUnmarshal (.num (n : ℚ)) = .ok n) ∧
    (∀ q : ℚ, q.den ≠ 1 → flexIntUnmarshal (.num q) = .ok 0) ∧
    (∀ (s : String) (n : Int), atoi s = some n → flexIntUnmarshal (.str s) = .ok n) ∧
    (∀ s : String, atoi s = none → flexIntUnmarshal (.str s) = .ok 0) ∧
    (∀ b : Bool, flexBoolUnmarshal (.bool b) = .ok b) ∧
    (∀ s : String,
      (strToLower s = "true" ∨ strToLower s = "1" ∨ strToLower s = "yes") →
        flexBoolUnmarshal (.str s) = .ok true) ∧
    (∀ s : String,
      ¬(strToLower s = "true" ∨ strToLower s = "1" ∨ strToLower s = "yes") →
        flexBoolUnmarshal (.str s) = .ok false) ∧
    (∀ xs : List Json, flexIntUnmarshal (.arr xs) = .ok 0 ∧ flexBoolUnmarshal (.arr xs) = .ok false) ∧
    (∀ fs : List (String × Json),
      flexIntUnmarshal (.obj fs) = .ok 0 ∧ flexBoolUnmarshal (.obj fs) = .ok false) := by
  refine ⟨?_, ?_, ?_, ?_, ?_, ?_, ?_, ?_, ?_, ?_, ?_⟩
  · intro v
    unfold flexIntUnmarshal
    rcases goUnmarshalInt v with _ | n
    · rcases goUnmarshalStr v with _ | s
      · exact ⟨0, rfl⟩
      · dsimp only
        split
        · exact ⟨0, rfl⟩
        · rcases atoi s with _ | n
          · exact ⟨0, rfl⟩
          · exact ⟨n, rfl⟩
    · exact ⟨n, rfl⟩
  · intro v
    unfold flexBoolUnmarshal
    rcases goUnmarshalBool v with _ | b
    · rcases goUnmarshalStr v with _ | s
      · exact ⟨false, rfl⟩
      · dsimp only
        split
        · exact ⟨true, rfl⟩
        · split
          · exact ⟨false, rfl⟩
          · exact ⟨false, rfl⟩
    · exact ⟨b, rfl⟩
  · intro n h1 h2
    have hrange : (-9223372036854775808 : Int) ≤ n ∧ n < 9223372036854775808 := by
      constructor <;> omega
    simp [flexIntUnmarshal, goUnmarshalInt, Rat.den_intCast, Rat.num_intCast, hrange]
  · intro q hq
    simp [flexIntUnmarshal, goUnmarshalInt, goUnmarshalStr, hq]
  · intro s n h
    by_cases hs : s = ""
    · subst hs
      simp [atoi] at h
    · simp [flexIntUnmarshal, goUnmarshalInt, goUnmarshalStr, hs, h]
  · intro s h
    by_cases hs : s = ""
    · subst hs
      simp [flexIntUnmarshal, goUnmarshalInt, goUnmarshalStr]
    · simp [flexIntUnmarshal, goUnmarshalInt, goUnmarshalStr, hs, h]
  · intro b
    simp [flexBoolUnmarshal, goUnmarshalBool]
  · intro s h
    simp [flexBoolUnmarshal, goUnmarshalBool, goUnmarshalStr, h]
  · intro s h
    simp only [flexBoolUnmarshal, goUnmarshalBool, goUnmarshalStr, if_neg h]
    split <;> rfl
  · intro xs
    exact ⟨rfl, rfl⟩
  · intro fs
    exact ⟨rfl, rfl⟩

/-- Witness for `c10_flexible_decode_amended` at concrete inputs. -/
theorem c10_flexible_decode_amended_witness :
    (∃ n : Int, flexIntUnmarshal Json.null = .ok n) ∧
    (-(2 ^ 63) : Int) ≤ 42 ∧ (42 : Int) < 2 ^ 63 ∧ flexIntUnmarshal (.num ((42 : Int) : ℚ)) = .ok 42 ∧
    atoi "17" = some 17 ∧ flexIntUnmarshal (.str "17") = .ok 17 ∧
    strToLower "Yes" = "yes" ∧ flexBoolUnmarshal (.str "Yes") = .ok true ∧
    ¬(strToLower "off" = "true" ∨ strToLower "off" = "1" ∨ strToLower "off" = "yes") ∧
    flexBoolUnmarshal (.str "off") = .ok false := by
  have h := c10_flexible_decode_amended
  refine ⟨h.1 Json.null, by decide, by decide, h.2.2.1 42 (by decide) (by decide),
    by decide, h.2.2.2.2.1 "17" 17 (by decide), by decide,
    h.2.2.2.2.2.2.2.1 "Yes" (by decide), by decide,
    h.2.2.2.2.2.2.2.2.1 "off" (by decide)⟩

/-! ## Agent control loop (part_008) and server metrics (server_metrics.go) -/

/-- `FlexibleInt` as stored in a record (the decoding itself is
`flexIntUnmarshal`). -/
structure FlexInt where
  value : Int
deriving DecidableEq, Repr

/-- `FlexibleBool` as stored in a record. -/
structure FlexBool where
  value : Bool
deriving DecidableEq, Repr

/-- The `servers` collection record (`ServerRecord`, part_003:116-143).
Times are modeled as integer timestamps, `float64` percentages as `ℚ`;
the `created`/`updated` bookkeeping stamps are irrelevant to every claim
and omitted. -/
structure ServerRecord where
  id : String
  serverId : String
  name : String
  hostname : String
  ipAddress : String
  osType : String
  status : String
  uptime : String
  ramTotal : Int
  ramUsed : Int
  cpuCores : Int
  cpuUsage : ℚ
  diskTotal : Int
  diskUsed : Int
  lastChecked : Int
  serverToken : String
  templateId : String
  notificationId : String
  timestamp : String
  connection : String
  systemInfo : String
  agentStatus : String
  checkInterval : FlexInt
  docker : FlexBool
deriving DecidableEq, Repr

/-- The configuration fields the control loop reads (config.go); durations
in nanoseconds.  `hasPB` models whether the PocketBase client was
initialized (`a.pocketBase != nil`). -/
structure Config where
  agentId : String
  serverName : String
  serverToken : String
  checkInterval : Int
  hasPB : Bool
deriving DecidableEq, Repr

/-- The locally sampled inputs consumed by one tick: system info, memory,
disk and CPU readings, the formatted uptime/system-info strings and
timestamps they produce, and the enumerated Docker container ids (empty
when Docker is unavailable). -/
structure LocalSample where
  hostname : String
  ipAddress : String
  osType : String
  ramUsed : Int
  ramTotal : Int
  diskUsed : Int
  diskTotal : Int
  cpuUsage : ℚ
  numCPU : Int
  uptimeStr : String
  systemInfo : String
  now : Int
  nowRFC : String
  dockerIds : List String
deriving DecidableEq, Repr

/-- In-process control state shared by the loops (`isMonitoring` and the
cached `serverRecord` pointer; `none` models a nil pointer). -/
structure AgentState where
  isMonitoring : Bool
  serverRecord : Option ServerRecord
deriving DecidableEq, Repr

/-- `gatherServerMetrics` (server_metrics.go:13-70): builds the `servers`
update from fresh local samples, copying `Docker` and `CheckInterval`
unchanged from the cached record; struct fields the Go literal leaves unset
are Go zero values. -/
def gatherServerMetrics (cfg : Config) (cached : ServerRecord) (ls : LocalSample) :
    ServerRecord where
  id := cached.id
  serverId := cfg.agentId
  name := cfg.serverName
  hostname := ls.hostname
  ipAddress := ls.ipAddress
  osType := ls.osType
  status := "up"
  uptime := ls.uptimeStr
  ramTotal := ls.ramTotal
  ramUsed := ls.ramUsed
  cpuCores := ls.numCPU
  cpuUsage := ls.cpuUsage
  diskTotal := ls.diskTotal
  diskUsed := ls.diskUsed
  lastChecked := ls.now
  serverToken := cfg.serverToken
  templateId := ""
  notificationId := ""
  timestamp := ls.nowRFC
  connection := "connected"
  systemInfo := ls.systemInfo
  agentStatus := ""
  checkInterval := cached.checkInterval
  docker := cached.docker

/-- `checkServerStatus` (part_008:253-294): with no client or no cached
record, keep monitoring at the configured interval; on fetch failure
(`fetch = none`) keep the cached record and keep monitoring; on success
replace the cached record, derive the interval from the record when its
value is positive (seconds → nanoseconds) else use the configured default,
and derive pause state from `status == "paused"` (which also updates
`isMonitoring`).  Returns `(shouldMonitor, interval, state')`. -/
def checkServerStatus (cfg : Config) (st : AgentState) (fetch : Option ServerRecord) :
    Bool × Int × AgentState :=
  if cfg.hasPB = false ∨ st.serverRecord = none then (true, cfg.checkInterval, st)
  else
    match fetch with
    | none => (true, cfg.checkInterval, st)
    | some cur =>
      let interval :=
        if cur.checkInterval.value > 0 then cur.checkInterval.value * 1000000000
        else cfg.checkInterval
      let paused := cur.status == "paused"
      (!paused, interval, { isMonitoring := !paused, serverRecord := some cur })

/-- One remote write attempted during a tick. -/
inductive RemoteWrite where
  | updateServer (recordId : String) (rec : ServerRecord)
  | saveDetailedMetrics (serverId : String) (now : Int)
  | saveDockerRecord (dockerId : String)
  | saveDockerMetrics (dockerId : String)
deriving DecidableEq, Repr

/-- The outcome of one tick: the remote writes attempted, the interval the
loop will schedule next (`newInterval`), whether the ticker was stopped and
recreated, and the control state after the tick. -/
structure TickResult where
  writes : List RemoteWrite
  newInterval : Int
  tickerRecreated : Bool
  state : AgentState
deriving DecidableEq, Repr

/-- Per-tick environment: the result of the `GetServerByID` refresh
(`none` = fetch error) and the local samples. -/
structure TickInput where
  fetch : Option ServerRecord
  ls : LocalSample
deriving DecidableEq, Repr

/-- One `case <-ticker.C` iteration of `collectMetrics` (part_008:312-384):
refresh status/interval, recreate the ticker if the interval changed, skip
the cycle when paused or not monitoring, else build the server update and
send it, send the detailed metrics record, and when the record's Docker
flag is set send the per-container records and metrics.  Remote calls are
attempted only with a PocketBase client (`updateServerRecord`,
`sendDetailedServerMetrics` and the Docker senders all bail out on a nil
client); the nil-cached-record path (Go would dereference nil) is likewise
modeled as producing no writes. -/
def collectMetricsTick (cfg : Config) (st : AgentState) (currentInterval : Int)
    (inp : TickInput) : TickResult :=
  let r := checkServerStatus cfg st inp.fetch
  let shouldMonitor := r.1
  let newInterval := r.2.1
  let st' := r.2.2
  let recreated := newInterval != currentInterval
  if shouldMonitor = false then ⟨[], newInterval, recreated, st'⟩
  else if st'.isMonitoring = false then ⟨[], newInterval, recreated, st'⟩
  else
    match st'.serverRecord with
    | none => ⟨[], newInterval, recreated, st'⟩
    | some cached =>
      if cfg.hasPB = false then ⟨[], newInterval, recreated, st'⟩
      else
        let sm := gatherServerMetrics cfg cached inp.ls
        let dockerWrites :=
          if sm.docker.value then
            inp.ls.dockerIds.map RemoteWrite.saveDockerRecord ++
              inp.ls.dockerIds.map RemoteWrite.saveDockerMetrics
          else []
        ⟨RemoteWrite.updateServer cached.id sm ::
            RemoteWrite.saveDetailedMetrics cfg.agentId inp.ls.now :: dockerWrites,
          newInterval, recreated, st'⟩

/-- The `for { select ... }` loop of `collectMetrics`, run over a finite
schedule of tick environments: each tick is processed with the state and
interval left by the previous one (context cancellation simply ends the
list). -/
def runTicks (cfg : Config) : AgentState → Int → List TickInput → List (List RemoteWrite)
  | _, _, [] => []
  | st, itv, inp :: rest =>
    let r := collectMetricsTick cfg st itv inp
    r.writes :: runTicks cfg r.state r.newInterval rest

/-- The scheduled interval after a tick is whatever `checkServerStatus`
derived, in every branch of the tick body. -/
theorem collectMetricsTick_newInterval (cfg : Config) (st : AgentState) (itv : Int)
    (inp : TickInput) :
    (collectMetricsTick cfg st itv inp).newInterval =
      (checkServerStatus cfg st inp.fetch).2.1 := by
  unfold collectMetricsTick
  dsimp only
  repeat' split <;> try rfl

/-- The ticker is recreated exactly when the derived interval differs from
the currently scheduled one, in every branch of the tick body. -/
theorem collectMetricsTick_recreated (cfg : Config) (st : AgentState) (itv : Int)
    (inp : TickInput) :
    (collectMetricsTick cfg st itv inp).tickerRecreated =
      ((checkServerStatus cfg st inp.fetch).2.1 != itv) := by
  unfold collectMetricsTick
  dsimp only
  repeat' split <;> try rfl

/-- The state after a tick is the state `checkServerStatus` produced, in
every branch of the tick body. -/
theorem collectMetricsTick_state (cfg : Config) (st : AgentState) (itv : Int)
    (inp : TickInput) :
    (collectMetricsTick cfg st itv inp).state = (checkServerStatus cfg st inp.fetch).2.2 := by
  unfold collectMetricsTick
  dsimp only
  repeat' split <;> try rfl

/-- C2: when the tick's refresh reads status `"paused"`, no snapshot write
of any kind is attempted and monitoring is off for that tick, yet the loop
structure is unchanged — the next scheduled tick is still processed (one
output entry per tick, unconditionally); when the refreshed status is
anything else, the server update is sent that very tick and monitoring is
back on. -/
theorem c2_pause_semantics (cfg : Config) (st : AgentState) (itv : Int)
    (inp : TickInput) (cur r0 : ServerRecord)
    (hpb : cfg.hasPB = true) (hrec : st.serverRecord = some r0)
    (hf : inp.fetch = some cur) :
    (cur.status = "paused" →
      (collectMetricsTick cfg st itv inp).writes = [] ∧
      (collectMetricsTick cfg st itv inp).state.isMonitoring = false) ∧
    (cur.status ≠ "paused" →
      RemoteWrite.updateServer cur.id (gatherServerMetrics cfg cur inp.ls) ∈
        (collectMetricsTick cfg st itv inp).writes ∧
      (collectMetricsTick cfg st itv inp).state.isMonitoring = true) ∧
    (∀ rest : List TickInput, runTicks cfg st itv (inp :: rest) =
      (collectMetricsTick cfg st itv inp).writes ::
        runTicks cfg (collectMetricsTick cfg st itv inp).state
          (collectMetricsTick cfg st itv inp).newInterval rest) ∧
    (∀ (st2 : AgentState) (itv2 : Int) (inputs : List TickInput),
      (runTicks cfg st2 itv2 inputs).length = inputs.length) := by
  refine ⟨?_, ?_, fun rest => rfl, ?_⟩
  · intro hp
    simp [collectMetricsTick, checkServerStatus, hpb, hrec, hf, hp]
  · intro hp
    have hps : (cur.status == "paused") = false := beq_eq_false_iff_ne.mpr hp
    simp [collectMetricsTick, checkServerStatus, hpb, hrec, hf, hps]
  · intro st2 itv2 inputs
    induction inputs generalizing st2 itv2 with
    | nil => rfl
    | cons i rest ih => simp [runTicks, ih]

/-- C3: `gatherServerMetrics` copies the check interval and the Docker flag
unchanged from the cached record and replaces only agent-reported fields
(status `"up"`, last-checked time, resource totals); consequently every
server-record update a tick sends carries those two fields from the record
fetched that tick, addressed by that record's id. -/
theorem c3_remote_fields_from_cache (cfg : Config) :
    (∀ (cached : ServerRecord) (ls : LocalSample),
      (gatherServerMetrics cfg cached ls).checkInterval = cached.checkInterval ∧
      (gatherServerMetrics cfg cached ls).docker = cached.docker ∧
      (gatherServerMetrics cfg cached ls).status = "up" ∧
      (gatherServerMetrics cfg cached ls).id = cached.id ∧
      (gatherServerMetrics cfg cached ls).lastChecked = ls.now ∧
      (gatherServerMetrics cfg cached ls).ramTotal = ls.ramTotal ∧
      (gatherServerMetrics cfg cached ls).ramUsed = ls.ramUsed ∧
      (gatherServerMetrics cfg cached ls).diskTotal = ls.diskTotal ∧
      (gatherServerMetrics cfg cached ls).diskUsed = ls.diskUsed ∧
      (gatherServerMetrics cfg cached ls).cpuUsage = ls.cpuUsage) ∧
    (∀ (st : AgentState) (itv : Int) (inp : TickInput) (cur : ServerRecord)
        (rid : String) (rec : ServerRecord),
      inp.fetch = some cur →
      RemoteWrite.updateServer rid rec ∈ (collectMetricsTick cfg st itv inp).writes →
      rec.checkInterval = cur.checkInterval ∧ rec.docker = cur.docker ∧
        rec.status = "up" ∧ rid = cur.id) := by
  constructor
  · intro cached ls
    refine ⟨rfl, rfl, rfl, rfl, rfl, rfl, rfl, rfl, rfl, rfl⟩
  · intro st itv inp cur rid rec hf hmem
    by_cases hpb : cfg.hasPB = true
    · rcases hrec : st.serverRecord with _ | r0
      · simp [collectMetricsTick, checkServerStatus, hpb, hrec] at hmem
      · by_cases hp : cur.status = "paused"
        · simp [collectMetricsTick, checkServerStatus, hpb, hrec, hf, hp] at hmem
        · have hps : (cur.status == "paused") = false := beq_eq_false_iff_ne.mpr hp
          cases hdk : (gatherServerMetrics cfg cur inp.ls).docker.value <;>
            simp [collectMetricsTick, checkServerStatus, hpb, hrec, hf, hps, hdk] at hmem
          · obtain ⟨h1, h2⟩ := hmem
            subst h1; subst h2
            exact ⟨rfl, rfl, rfl, rfl⟩
          · obtain ⟨h1, h2⟩ := hmem
            subst h1; subst h2
            exact ⟨rfl, rfl, rfl, rfl⟩
    · have hpb' : cfg.hasPB = false := by
        cases h : cfg.hasPB
        · rfl
        · exact absurd h hpb
      cases hmon : st.isMonitoring <;> rcases hrec : st.serverRecord with _ | r0 <;>
        simp [collectMetricsTick, checkServerStatus, hpb', hmon, hrec] at hmem

/-- C4 (amended): on a tick whose refresh succeeds, the effective interval
is the fetched record's check interval (converted from seconds) when
positive, else the configured default; on fetch failure the configured
default is used for that tick — even though the cached record is kept and
may hold a positive interval (see the counterexample); the ticker is
stopped and recreated exactly when the derived interval differs from the
currently scheduled one; and the next tick is scheduled with the derived
interval. -/
theorem c4_interval_and_ticker (cfg : Config) (st : AgentState) (itv : Int)
    (inp : TickInput) (r0 : ServerRecord)
    (hpb : cfg.hasPB = true) (hrec : st.serverRecord = some r0) :
    (∀ cur : ServerRecord, inp.fetch = some cur →
      (collectMetricsTick cfg st itv inp).newInterval =
        (if cur.checkInterval.value > 0 then cur.checkInterval.value * 1000000000
          else cfg.checkInterval)) ∧
    (inp.fetch = none →
      (collectMetricsTick cfg st itv inp).newInterval = cfg.checkInterval) ∧
    ((collectMetricsTick cfg st itv inp).tickerRecreated = true ↔
      (collectMetricsTick cfg st itv inp).newInterval ≠ itv) ∧
    (∀ rest : List TickInput, runTicks cfg st itv (inp :: rest) =
      (collectMetricsTick cfg st itv inp).writes ::
        runTicks cfg (collectMetricsTick cfg st itv inp).state
          (collectMetricsTick cfg st itv inp).newInterval rest) := by
  refine ⟨?_, ?_, ?_, fun rest => rfl⟩
  · intro cur hf
    rw [collectMetricsTick_newInterval]
    simp [checkServerStatus, hpb, hrec, hf]
  · intro hf
    rw [collectMetricsTick_newInterval]
    simp [checkServerStatus, hpb, hrec, hf]
  · rw [collectMetricsTick_recreated, collectMetricsTick_newInterval]
    exact bne_iff_ne

/-- A concrete configuration used by the witnesses (interval 30s in ns). -/
def wCfg : Config := ⟨"agent-1", "srv", "tok", 30000000000, true⟩

/-- A concrete cached record with status `"paused"` and interval 60s. -/
def wPausedRec : ServerRecord :=
  ⟨"rid1", "agent-1", "srv", "host", "ip", "linux", "paused", "", 0, 0, 0, 0, 0, 0, 0,
    "tok", "", "", "", "", "", "", ⟨60⟩, ⟨false⟩⟩

/-- The same record with status `"up"` and interval 45s. -/
def wUpRec : ServerRecord := { wPausedRec with status := "up", checkInterval := ⟨45⟩ }

/-- A concrete local sample. -/
def wLS : LocalSample :=
  ⟨"host", "ip", "linux", 1, 2, 3, 4, 0, 4, "0d 0h 0m", "si", 100, "t", []⟩

/-- A concrete control state holding a cached record. -/
def wSt : AgentState := ⟨true, some wPausedRec⟩

/-- Witness for `c2_pause_semantics`: a paused fetch yields an empty write
list with monitoring off, an `"up"` fetch sends the server update with
monitoring on, and both ticks are processed. -/
theorem c2_pause_semantics_witness :
    wPausedRec.status = "paused" ∧
    (collectMetricsTick wCfg wSt 30000000000 ⟨some wPausedRec, wLS⟩).writes = [] ∧
    (collectMetricsTick wCfg wSt 30000000000 ⟨some wPausedRec, wLS⟩).state.isMonitoring = false ∧
    wUpRec.status ≠ "paused" ∧
    RemoteWrite.updateServer wUpRec.id (gatherServerMetrics wCfg wUpRec wLS) ∈
      (collectMetricsTick wCfg wSt 30000000000 ⟨some wUpRec, wLS⟩).writes ∧
    (runTicks wCfg wSt 30000000000 [⟨some wPausedRec, wLS⟩, ⟨some wUpRec, wLS⟩]).length = 2 := by
  have h1 := c2_pause_semantics wCfg wSt 30000000000 ⟨some wPausedRec, wLS⟩
    wPausedRec wPausedRec rfl rfl rfl
  have h2 := c2_pause_semantics wCfg wSt 30000000000 ⟨some wUpRec, wLS⟩
    wUpRec wPausedRec rfl rfl rfl
  exact ⟨rfl, (h1.1 rfl).1, (h1.1 rfl).2, by decide, (h2.2.1 (by decide)).1,
    h1.2.2.2 wSt 30000000000 [⟨some wPausedRec, wLS⟩, ⟨some wUpRec, wLS⟩]⟩

/-- Witness for `c3_remote_fields_from_cache` at concrete inputs. -/
theorem c3_remote_fields_from_cache_witness :
    (gatherServerMetrics wCfg wUpRec wLS).checkInterval = wUpRec.checkInterval ∧
    (gatherServerMetrics wCfg wUpRec wLS).docker = wUpRec.docker ∧
    (gatherServerMetrics wCfg wUpRec wLS).status = "up" ∧
    (⟨some wUpRec, wLS⟩ : TickInput).fetch = some wUpRec ∧
    RemoteWrite.updateServer wUpRec.id (gatherServerMetrics wCfg wUpRec wLS) ∈
      (collectMetricsTick wCfg wSt 30000000000 ⟨some wUpRec, wLS⟩).writes ∧
    (gatherServerMetrics wCfg wUpRec wLS).checkInterval = wUpRec.checkInterval ∧
      (gatherServerMetrics wCfg wUpRec wLS).docker = wUpRec.docker ∧
      (gatherServerMetrics wCfg wUpRec wLS).status = "up" ∧ wUpRec.id = wUpRec.id := by
  have h := c3_remote_fields_from_cache wCfg
  have hmem : RemoteWrite.updateServer wUpRec.id (gatherServerMetrics wCfg wUpRec wLS) ∈
      (collectMetricsTick wCfg wSt 30000000000 ⟨some wUpRec, wLS⟩).writes := by
    decide
  exact ⟨(h.1 wUpRec wLS).1, (h.1 wUpRec wLS).2.1, (h.1 wUpRec wLS).2.2.1, rfl, hmem,
    h.2 wSt 30000000000 ⟨some wUpRec, wLS⟩ wUpRec wUpRec.id
      (gatherServerMetrics wCfg wUpRec wLS) rfl hmem⟩

/-- Witness for `c4_interval_and_ticker`: the `"up"` record carries
interval 45s while 30s is scheduled, so the derived interval is 45s and the
ticker is recreated. -/
theorem c4_interval_and_ticker_witness :
    (collectMetricsTick wCfg wSt 30000000000 ⟨some wUpRec, wLS⟩).newInterval =
      (if wUpRec.checkInterval.value > 0 then wUpRec.checkInterval.value * 1000000000
        else wCfg.checkInterval) ∧
    ((collectMetricsTick wCfg wSt 30000000000 ⟨some wUpRec, wLS⟩).tickerRecreated = true ↔
      (collectMetricsTick wCfg wSt 30000000000 ⟨some wUpRec, wLS⟩).newInterval ≠ 30000000000) ∧
    (collectMetricsTick wCfg wSt 30000000000 ⟨none, wLS⟩).newInterval = wCfg.checkInterval := by
  have h1 := c4_interval_and_ticker wCfg wSt 30000000000 ⟨some wUpRec, wLS⟩ wPausedRec rfl rfl
  have h2 := c4_interval_and_ticker wCfg wSt 30000000000 ⟨none, wLS⟩ wPausedRec rfl rfl
  exact ⟨h1.1 wUpRec rfl, h1.2.2.1, h2.2.1 rfl⟩

/-- C4 counterexample: on a fetch-failure tick the loop keeps the cached
record — here holding the present and positive interval 60s — yet derives
the configured default 30s, not 60s, as the claim would require of "the
cached ServerRecord's check interval when present and positive". -/
theorem c4_interval_counterexample :
    wSt.serverRecord = some wPausedRec ∧
    wPausedRec.checkInterval.value > 0 ∧
    (collectMetricsTick wCfg wSt 30000000000 ⟨none, wLS⟩).state.serverRecord =
      some wPausedRec ∧
    (collectMetricsTick wCfg wSt 30000000000 ⟨none, wLS⟩).newInterval = wCfg.checkInterval ∧
    wCfg.checkInterval ≠ wPausedRec.checkInterval.value * 1000000000 := by
  refine ⟨rfl, by decide, ?_, ?_, by decide⟩
  · rw [collectMetricsTick_state]
    rfl
  · rw [collectMetricsTick_newInterval]
    rfl

/-! ## Command channel (part_008, `checkForCommands` / `executeCommand`) -/

/-- A `commands` collection record (part_003:188-195).  The Go `Parameters`
field holds JSON text; it is modeled as the decoded JSON value, with `none`
for the empty string. -/
structure CommandRecord where
  id : String
  agentId : String
  command : String
  parameters : Option Json
  executed : Bool

/-- `json.Unmarshal` of a parameter payload into `map[string]string`:
succeeds on an object whose values are all strings (and on `null`, a
no-op), errors otherwise. -/
def decodeStringPairs : Json → Option (List (String × String))
  | .null => some []
  | .obj fs =>
    fs.foldr
      (fun p acc =>
        match p.2, acc with
        | .str v, some ps => some ((p.1, v) :: ps)
        | _, _ => none)
      (some [])
  | _ => none

/-- The parameter-decoding step of `checkForCommands` (part_008:424-431):
an empty payload string means empty parameters; a decode failure makes the
loop skip the command. -/
def decodeParamsOf (c : CommandRecord) : Option (List (String × String)) :=
  match c.parameters with
  | none => some []
  | some j => decodeStringPairs j

/-- The remote environment of the command loop: whether the PocketBase
client exists and the outcome of the n-th `UpdateAgentStatus` call. -/
structure CmdEnv where
  hasPB : Bool
  rok : Nat → Bool

/-- Control state threaded through command execution: the `isMonitoring`
flag and the number of remote status updates already attempted. -/
structure CtrlState where
  isMonitoring : Bool
  calls : Nat
deriving DecidableEq, Repr

/-- `updateAgentStatus` (part_008:493-512): without a client it is a no-op
success; with one it performs the next remote update and reports its
outcome. -/
def updateAgentStatusC (env : CmdEnv) (s : CtrlState) : CtrlState × Bool :=
  if env.hasPB then ({ s with calls := s.calls + 1 }, env.rok s.calls)
  else (s, true)

/-- `startMonitoring` (part_008:468-475). -/
def startMonitoringC (env : CmdEnv) (s : CtrlState) : CtrlState × Bool :=
  updateAgentStatusC env { s with isMonitoring := true }

/-- `stopMonitoring` (part_008:477-484). -/
def stopMonitoringC (env : CmdEnv) (s : CtrlState) : CtrlState × Bool :=
  updateAgentStatusC env { s with isMonitoring := false }

/-- `executeCommand` (part_008:448-466); the boolean is "returned a nil
error".  `restart` is stop-then-start, bailing out if the stop failed;
an unknown name is an error with no state change. -/
def executeCommandC (env : CmdEnv) (s : CtrlState) (cmd : String) : CtrlState × Bool :=
  if cmd = "start" then startMonitoringC env s
  else if cmd = "stop" then stopMonitoringC env s
  else if cmd = "restart" then
    let r := stopMonitoringC env s
    if r.2 then startMonitoringC env r.1 else (r.1, false)
  else if cmd = "config_update" then updateAgentStatusC env s
  else (s, false)

/-- The command names `executeCommand` dispatches on. -/
def knownCommands : List String := ["start", "stop", "restart", "config_update"]

/-- The per-poll loop of `checkForCommands` (part_008:415-446): decode each
pending command's parameters (skip it on failure), dispatch it, and call
`MarkCommandExecuted` only when the dispatch returned nil.  Returns the
final state and the commands marked executed, in order. -/
def checkForCommandsC (env : CmdEnv) : CtrlState → List CommandRecord →
    CtrlState × List CommandRecord
  | s, [] => (s, [])
  | s, c :: rest =>
    match decodeParamsOf c with
    | none => checkForCommandsC env s rest
    | some _ =>
      let r := executeCommandC env s c.command
      let rr := checkForCommandsC env r.1 rest
      if r.2 then (rr.1, c :: rr.2) else rr

/-- A dispatch that returned nil was for one of the four known names. -/
theorem executeCommandC_known (env : CmdEnv) (s : CtrlState) (cmd : String)
    (h : (executeCommandC env s cmd).2 = true) : cmd ∈ knownCommands := by
  by_cases h1 : cmd = "start"
  · subst h1; simp [knownCommands]
  · by_cases h2 : cmd = "stop"
    · subst h2; simp [knownCommands]
    · by_cases h3 : cmd = "restart"
      · subst h3; simp [knownCommands]
      · by_cases h4 : cmd = "config_update"
        · subst h4; simp [knownCommands]
        · exfalso
          unfold executeCommandC at h
          rw [if_neg h1, if_neg h2, if_neg h3, if_neg h4] at h
          simp at h

/-- When every remote status update succeeds, dispatch succeeds exactly on
the known names. -/
theorem executeCommandC_total (env : CmdEnv) (henv : env.rok = fun _ => true)
    (s : CtrlState) (cmd : String) :
    (executeCommandC env s cmd).2 = knownCommands.contains cmd := by
  have hups : ∀ t : CtrlState, (updateAgentStatusC env t).2 = true := by
    intro t
    unfold updateAgentStatusC
    split
    · simp [henv]
    · rfl
  by_cases h1 : cmd = "start"
  · subst h1
    simp [executeCommandC, startMonitoringC, hups, knownCommands]
  · by_cases h2 : cmd = "stop"
    · subst h2
      simp [executeCommandC, stopMonitoringC, hups, knownCommands]
    · by_cases h3 : cmd = "restart"
      · subst h3
        simp [executeCommandC, startMonitoringC, stopMonitoringC, hups, knownCommands]
      · by_cases h4 : cmd = "config_update"
        · subst h4
          simp [executeCommandC, hups, knownCommands]
        · unfold executeCommandC
          rw [if_neg h1, if_neg h2, if_neg h3, if_neg h4]
          simp [knownCommands, h1, h2, h3, h4]

/-- Everything marked executed had decodable parameters and a known name. -/
theorem checkForCommandsC_marked (env : CmdEnv) :
    ∀ (cmds : List CommandRecord) (s : CtrlState),
      ∀ c ∈ (checkForCommandsC env s cmds).2,
        (decodeParamsOf c).isSome = true ∧ c.command ∈ knownCommands := by
  intro cmds
  induction cmds with
  | nil =>
    intro s c hc
    simp [checkForCommandsC] at hc
  | cons d rest ih =>
    intro s c hc
    unfold checkForCommandsC at hc
    cases hd : decodeParamsOf d with
    | none =>
      rw [hd] at hc
      exact ih _ c hc
    | some ps =>
      rw [hd] at hc
      dsimp only at hc
      by_cases hex : (executeCommandC env s d.command).2 = true
      · rw [if_pos hex] at hc
        rcases List.mem_cons.mp hc with hc | hc
        · subst hc
          exact ⟨by rw [hd]; rfl, executeCommandC_known env s c.command hex⟩
        · exact ih _ c hc
      · rw [if_neg hex] at hc
        exact ih _ c hc

/-- With an always-succeeding remote, the marked commands are exactly the
decodable ones with known names. -/
theorem checkForCommandsC_filter (env : CmdEnv) (henv : env.rok = fun _ => true) :
    ∀ (cmds : List CommandRecord) (s : CtrlState),
      (checkForCommandsC env s cmds).2 =
        cmds.filter (fun c => (decodeParamsOf c).isSome && knownCommands.contains c.command) := by
  intro cmds
  induction cmds with
  | nil => intro s; rfl
  | cons d rest ih =>
    intro s
    unfold checkForCommandsC
    cases hd : decodeParamsOf d with
    | none => simp [List.filter_cons, hd, ih]
    | some ps =>
      dsimp only
      rw [executeCommandC_total env henv]
      by_cases hk : d.command ∈ knownCommands
      · have hk' : knownCommands.contains d.command = true := by simpa using hk
        rw [hk']
        simp [List.filter_cons, hd, hk, ih]
      · have hk' : knownCommands.contains d.command = false := by simpa using hk
        rw [hk']
        simp [List.filter_cons, hd, hk, ih]

/-- The same fold as `checkForCommandsC`, instrumented: it annotates each
fetched command with whether its dispatch returned nil at its position in
the poll (a command skipped for an undecodable payload is annotated
`false`), threading the control state exactly as the loop does. -/
def commandTrace (env : CmdEnv) : CtrlState → List CommandRecord →
    List (CommandRecord × Bool)
  | _, [] => []
  | s, c :: rest =>
    match decodeParamsOf c with
    | none => (c, false) :: commandTrace env s rest
    | some _ =>
      let r := executeCommandC env s c.command
      (c, r.2) :: commandTrace env r.1 rest

/-- For every remote environment, the marked commands are exactly those
whose dispatch returned nil at their position in the poll: a failing
dispatch — including a known-name command whose remote status update
errors — contributes nothing to the marked list. -/
theorem checkForCommandsC_eq_trace (env : CmdEnv) :
    ∀ (cmds : List CommandRecord) (s : CtrlState),
      (checkForCommandsC env s cmds).2 =
        ((commandTrace env s cmds).filter (fun p => p.2)).map (fun p => p.1) := by
  intro cmds
  induction cmds with
  | nil => intro s; rfl
  | cons c rest ih =>
    intro s
    unfold checkForCommandsC commandTrace
    cases hd : decodeParamsOf c with
    | none => simp [List.filter_cons, ih]
    | some ps =>
      dsimp only
      cases hex : (executeCommandC env s c.command).2 <;>
        simp [List.filter_cons, hex, ih]

/-- C9: for every remote environment the commands marked executed are
exactly those whose dispatch returned nil at their poll position, so a
command whose dispatch errors — an unknown name, or a known name whose
remote status update fails — is not marked and remains pending for the next
poll: a failing head command contributes nothing to the marked list and
processing just continues; everything marked had decodable parameters and a
known name, an unknown-name command is never marked, and when every remote
call succeeds exactly the decodable known-name commands are marked. -/
theorem c9_command_retry (env : CmdEnv) (s : CtrlState) (cmds : List CommandRecord) :
    ((checkForCommandsC env s cmds).2 =
      ((commandTrace env s cmds).filter (fun p => p.2)).map (fun p => p.1)) ∧
    (∀ (c : CommandRecord) (rest : List CommandRecord) (ps : List (String × String)),
      decodeParamsOf c = some ps → (executeCommandC env s c.command).2 = false →
      (checkForCommandsC env s (c :: rest)).2 =
        (checkForCommandsC env (executeCommandC env s c.command).1 rest).2) ∧
    (∀ c ∈ (checkForCommandsC env s cmds).2,
      (decodeParamsOf c).isSome = true ∧ c.command ∈ knownCommands) ∧
    (∀ c : CommandRecord, c.command ∉ knownCommands →
      c ∉ (checkForCommandsC env s cmds).2) ∧
    (env.rok = (fun _ => true) →
      (checkForCommandsC env s cmds).2 =
        cmds.filter (fun c => (decodeParamsOf c).isSome && knownCommands.contains c.command)) := by
  refine ⟨checkForCommandsC_eq_trace env cmds s, ?_, checkForCommandsC_marked env cmds s, ?_, ?_⟩
  · intro c rest ps hd hex
    conv_lhs => rw [checkForCommandsC]
    rw [hd]
    dsimp only
    rw [if_neg (by rw [hex]; exact Bool.false_ne_true)]
  · intro c hn hc
    exact hn (checkForCommandsC_marked env cmds s c hc).2
  · intro henv
    exact checkForCommandsC_filter env henv cmds s

/-- A concrete pending `start` command. -/
def wCmdStart : CommandRecord := ⟨"c1", "agent-1", "start", none, false⟩

/-- A concrete pending command with an unknown name. -/
def wCmdUnknown : CommandRecord := ⟨"c2", "agent-1", "frobnicate", none, false⟩

/-- Witness for `c9_command_retry`: with a failing remote, the known-name
`start` command's dispatch errors and the command is not marked; with a
succeeding remote, of a `start` command and an unknown command only the
former is marked executed. -/
theorem c9_command_retry_witness :
    decodeParamsOf wCmdStart = some [] ∧
    wCmdStart.command ∈ knownCommands ∧
    (executeCommandC ⟨true, fun _ => false⟩ ⟨true, 0⟩ wCmdStart.command).2 = false ∧
    (checkForCommandsC ⟨true, fun _ => false⟩ ⟨true, 0⟩ [wCmdStart]).2 =
      (checkForCommandsC ⟨true, fun _ => false⟩
        (executeCommandC ⟨true, fun _ => false⟩ ⟨true, 0⟩ wCmdStart.command).1 []).2 ∧
    (checkForCommandsC ⟨true, fun _ => false⟩ ⟨true, 0⟩ [wCmdStart]).2 = [] ∧
    (checkForCommandsC ⟨true, fun _ => true⟩ ⟨true, 0⟩ [wCmdStart, wCmdUnknown]).2 =
      [wCmdStart] ∧
    wCmdUnknown ∉ (checkForCommandsC ⟨true, fun _ => true⟩ ⟨true, 0⟩
      [wCmdStart, wCmdUnknown]).2 := by
  have hfail := c9_command_retry ⟨true, fun _ => false⟩ ⟨true, 0⟩ [wCmdStart]
  have hok := c9_command_retry ⟨true, fun _ => true⟩ ⟨true, 0⟩ [wCmdStart, wCmdUnknown]
  refine ⟨rfl, by decide, rfl, hfail.2.1 wCmdStart [] [] rfl rfl, ?_, ?_,
    hok.2.2.2.1 wCmdUnknown (by decide)⟩
  · rw [hfail.1]
    rfl
  · rw [hok.2.2.2.2 rfl]
    rfl

end CheckeAgent
